import Mathlib

/-!
Verification of the journal search core of `ai-journal-kit`.

The Python modules `core/date_utils.py`, `core/file_scanner.py`,
`core/search_engine.py` and `core/search_result.py` are shallowly embedded
below.  Filesystem state is made explicit: a scanned corpus is the list of
files (relative path components plus raw lines) in the order the underlying
`Path.rglob("*.md")` enumeration yields them, "today" and the wall clock are
parameters, and Python exceptions become `Option`.
-/

/-- A Gregorian calendar date, as Python's `datetime.date`. -/
structure Date where
  year : Nat
  month : Nat
  day : Nat
deriving DecidableEq, Repr

/-- Gregorian leap-year rule used by `datetime.date`. -/
def isLeapYear (y : Nat) : Bool :=
  (y % 4 == 0 && y % 100 != 0) || y % 400 == 0

/-- Number of days in a month of a given year. -/
def daysInMonth (y m : Nat) : Nat :=
  if m == 2 then (if isLeapYear y then 29 else 28)
  else if m == 4 || m == 6 || m == 9 || m == 11 then 30
  else 31

/-- The validity check performed by the `datetime.date` constructor:
`date(year, month, day)` raises `ValueError` unless `1 <= year <= 9999`,
`1 <= month <= 12` and `1 <= day <= daysInMonth`. -/
def isValidDate (y m d : Nat) : Bool :=
  1 ≤ y && y ≤ 9999 && 1 ≤ m && m ≤ 12 && 1 ≤ d && d ≤ daysInMonth y m

/-- Python date comparison `a <= b`: lexicographic on (year, month, day). -/
def Date.ble (a b : Date) : Bool :=
  decide (a.year < b.year ∨ (a.year = b.year ∧
    (a.month < b.month ∨ (a.month = b.month ∧ a.day ≤ b.day))))

/-- Python date comparison `a < b`. -/
def Date.blt (a b : Date) : Bool :=
  decide (a.year < b.year ∨ (a.year = b.year ∧
    (a.month < b.month ∨ (a.month = b.month ∧ a.day < b.day))))

/-- Serial day number of a civil date (proleptic Gregorian), used to model
Python's exact `date` / `timedelta` arithmetic. -/
def Date.toOrdinal (dt : Date) : Int :=
  let y : Int := if dt.month ≤ 2 then (dt.year : Int) - 1 else (dt.year : Int)
  let m : Int := dt.month
  let d : Int := dt.day
  let era : Int := Int.fdiv y 400
  let yoe : Int := y - era * 400
  let mShift : Int := if dt.month > 2 then m - 3 else m + 9
  let doy : Int := Int.fdiv (153 * mShift + 2) 5 + d - 1
  let doe : Int := yoe * 365 + Int.fdiv yoe 4 - Int.fdiv yoe 100 + doy
  era * 146097 + doe - 719468

/-- Civil date of a serial day number; inverse of `Date.toOrdinal`. -/
def Date.ofOrdinal (z0 : Int) : Date :=
  let z : Int := z0 + 719468
  let era : Int := Int.fdiv z 146097
  let doe : Int := z - era * 146097
  let yoe : Int := Int.fdiv (doe - Int.fdiv doe 1460 + Int.fdiv doe 36524 - Int.fdiv doe 146096) 365
  let y : Int := yoe + era * 400
  let doy : Int := doe - (365 * yoe + Int.fdiv yoe 4 - Int.fdiv yoe 100)
  let mp : Int := Int.fdiv (5 * doy + 2) 153
  let d : Int := doy - Int.fdiv (153 * mp + 2) 5 + 1
  let m : Int := if mp < 10 then mp + 3 else mp - 9
  let yy : Int := if m ≤ 2 then y + 1 else y
  ⟨yy.toNat, m.toNat, d.toNat⟩

/-- Python `today - timedelta(days=n)`. -/
def Date.subDays (dt : Date) (n : Nat) : Date :=
  Date.ofOrdinal (dt.toOrdinal - n)

/-- Numeric value of an ASCII digit character, as Python `int()` on digits. -/
def charVal (c : Char) : Nat := c.toNat - 48

/-- A window of characters matching the anchored regular expression
`^(\d{4})-(\d{2})-(\d{2})$` from `date_utils.parse_date`, together with the
`int()` conversion of the three groups. -/
def absDateParse : List Char → Option (Nat × Nat × Nat)
  | [y1, y2, y3, y4, s1, m1, m2, s2, d1, d2] =>
    if y1.isDigit && y2.isDigit && y3.isDigit && y4.isDigit && s1 == '-' &&
       m1.isDigit && m2.isDigit && s2 == '-' && d1.isDigit && d2.isDigit then
      some (((charVal y1 * 10 + charVal y2) * 10 + charVal y3) * 10 + charVal y4,
            (charVal m1 * 10 + charVal m2,
             charVal d1 * 10 + charVal d2))
    else none
  | _ => none

/-- Value of a digit string, as Python `int()` applied to the first group of
`^(\d+)([dwm])$`. -/
def digitsToNat (cs : List Char) : Nat :=
  cs.foldl (fun a c => a * 10 + charVal c) 0

/-- Match against the anchored regular expression `^(\d+)([dwm])$` from
`date_utils.parse_relative_date`, returning amount and unit. -/
def relDateParse (cs : List Char) : Option (Nat × Char) :=
  match cs.getLast? with
  | some u =>
    if !cs.dropLast.isEmpty && cs.dropLast.all Char.isDigit &&
       (u == 'd' || u == 'w' || u == 'm') then
      some (digitsToNat cs.dropLast, u)
    else none
  | none => none

/-- `date_utils.parse_relative_date`: relative date expressions `Nd`/`Nw`/`Nm`
resolved against `today` (`date.today()` at call time); `none` models the
`ValueError` on a non-matching string. -/
def parse_relative_date (today : Date) (s : String) : Option Date :=
  match relDateParse s.data with
  | none => none
  | some (amount, unit) =>
    if unit == 'd' then some (today.subDays amount)
    else if unit == 'w' then some (today.subDays (7 * amount))
    else if unit == 'm' then some (today.subDays (amount * 30))
    else none

/-- `date_utils.parse_date`: absolute `YYYY-MM-DD` first (a calendar-invalid
date raises, modelled `none`), then the relative grammar, else `ValueError`. -/
def parse_date (today : Date) (s : String) : Option Date :=
  match absDateParse s.data with
  | some (y, m, d) => if isValidDate y m d then some ⟨y, m, d⟩ else none
  | none =>
    match relDateParse s.data with
    | some _ => parse_relative_date today s
    | none => none

/-- Whether the unanchored regex `(\d{4})-(\d{2})-(\d{2})` matches the window
of ten characters starting at position `i`. -/
def dateShapedAt (cs : List Char) (i : Nat) : Bool :=
  (absDateParse ((cs.drop i).take 10)).isSome

/-- The left-to-right scan of `re.search` with the unanchored pattern
`(\d{4})-(\d{2})-(\d{2})`: the first matching ten-character window. -/
def findDateWindow : List Char → Option (List Char)
  | [] => none
  | c :: rest =>
    if (absDateParse ((c :: rest).take 10)).isSome then some ((c :: rest).take 10)
    else findDateWindow rest

/-- Body of `date_utils.extract_date_from_filename` applied to the filename:
first date-shaped substring, calendar-invalid values give `None` silently. -/
def extractDateFromName (cs : List Char) : Option Date :=
  match findDateWindow cs with
  | none => none
  | some w =>
    match absDateParse w with
    | some (y, m, d) => if isValidDate y m d then some ⟨y, m, d⟩ else none
    | none => none

/-- `date_utils.extract_date_from_filename`.  A path is its list of
components relative to the journal root; `file_path.name` is the last
component. -/
def extract_date_from_filename (path : List String) : Option Date :=
  match path.getLast? with
  | none => none
  | some name => extractDateFromName name.data

/-- `search_result.EntryType`: the closed set of journal entry types. -/
inductive EntryType where
  | DAILY
  | PROJECT
  | PEOPLE
  | MEMORY
deriving DecidableEq, Repr

/-- `list(EntryType)` in Python: members in declaration order. -/
def EntryType.all : List EntryType :=
  [.DAILY, .PROJECT, .PEOPLE, .MEMORY]

/-- The `value` of each enum member (`EntryType(str, Enum)`). -/
def EntryType.value : EntryType → String
  | .DAILY => "daily"
  | .PROJECT => "project"
  | .PEOPLE => "people"
  | .MEMORY => "memory"

/-- The `folder_mapping` table of `FileScanner.get_entry_type`. -/
def folderMapping (folder : String) : Option EntryType :=
  if folder == "daily" then some .DAILY
  else if folder == "projects" then some .PROJECT
  else if folder == "people" then some .PEOPLE
  else if folder == "memories" then some .MEMORY
  else none

/-- `FileScanner.get_entry_type` on a path given by its components relative
to the journal root: looks up the first component in `folderMapping`;
`none` models the `ValueError` on an empty relative path or unknown folder. -/
def get_entry_type (path : List String) : Option EntryType :=
  match path.head? with
  | none => none
  | some folder => folderMapping folder

/-- One markdown file as yielded by `Path.rglob("*.md")`: its path components
relative to the journal root and its raw lines as from `readlines()` (line
terminators may still be present; the engine strips them). -/
structure JFile where
  path : List String
  lines : List String
deriving DecidableEq, Repr

/-- The entry-type filter of `FileScanner.scan`.  Python's `if entry_types:`
is falsy both for `None` and for an empty list; classification failure
(`ValueError`) excludes the file. -/
def typePass (path : List String) (entry_types : Option (List EntryType)) : Bool :=
  match entry_types with
  | none => true
  | some ets =>
    if ets.isEmpty then true
    else
      match get_entry_type path with
      | some t => ets.contains t
      | none => false

/-- The date filter of `FileScanner.scan`: applied only when a bound is
given, and only to files whose filename carries a date. -/
def datePass (path : List String) (date_after date_before : Option Date) : Bool :=
  if date_after.isSome || date_before.isSome then
    match extract_date_from_filename path with
    | some fd =>
      (match date_after with
       | some da => !(Date.blt fd da)
       | none => true) &&
      (match date_before with
       | some db => !(Date.blt db fd)
       | none => true)
    | none => true
  else true

/-- `FileScanner.scan`: the `rglob` enumeration `fs` filtered by entry type
and date, preserving enumeration order. -/
def FileScanner.scan (fs : List JFile) (entry_types : Option (List EntryType))
    (date_after date_before : Option Date) : List JFile :=
  fs.filter (fun f => typePass f.path entry_types && datePass f.path date_after date_before)

/-- `search_result.SearchQuery` (filter fields and defaults as in the
Pydantic model). -/
structure SearchQuery where
  search_text : String
  date_after : Option Date := none
  date_before : Option Date := none
  entry_types : List EntryType := EntryType.all
  case_sensitive : Bool := false
  limit : Option Nat := none
deriving DecidableEq, Repr

/-- The constraints enforced by the Pydantic validators of `SearchQuery`:
non-empty text, non-empty entry types, positive limit, ordered date range. -/
def SearchQuery.validB (q : SearchQuery) : Bool :=
  !(q.search_text == "") && !q.entry_types.isEmpty &&
  (match q.limit with
   | some n => decide (0 < n)
   | none => true) &&
  (match q.date_after, q.date_before with
   | some da, some db => Date.ble da db
   | _, _ => true)

/-- `search_result.SearchResult`. -/
structure SearchResult where
  file_path : List String
  entry_type : EntryType
  entry_date : Option Date
  line_number : Nat
  matched_line : String
  context_before : List String
  context_after : List String
  match_positions : List (Nat × Nat)
deriving DecidableEq, Repr

/-- `search_result.SearchResultSet` (`execution_time_ms` kept abstract as a
natural number of milliseconds). -/
structure SearchResultSet where
  results : List SearchResult
  query : SearchQuery
  total_count : Nat
  execution_time_ms : Nat
  files_scanned : Nat
deriving DecidableEq, Repr

/-- `str.rstrip("\n\r")` as applied by `_search_in_file`. -/
def rstripNL (s : String) : String :=
  String.mk (s.data.reverse.dropWhile (fun c => c == '\n' || c == '\r')).reverse

/-- Python `str.strip()`: drop leading and trailing whitespace. -/
def strTrim (s : String) : String :=
  String.mk (((s.data.dropWhile Char.isWhitespace).reverse.dropWhile Char.isWhitespace).reverse)

/-- Python `str.endswith(suffix)`. -/
def strEndsWith (s suffix : String) : Bool :=
  suffix.data.isSuffixOf s.data

/-- Python slicing `s[:-3]` as used to strip a trailing `.md`. -/
def strDropRight (s : String) (n : Nat) : String :=
  String.mk (s.data.take (s.data.length - n))

/-- `str.lower()` as used for `re.IGNORECASE` matching, spelled over the
character list so the kernel can evaluate it. -/
def strLower (s : String) : String :=
  String.mk (s.data.map Char.toLower)

/-- `pattern.lower()` handling of `re.IGNORECASE`: the literal pattern and
the line are compared case-folded unless the search is case-sensitive. -/
def foldCase (case_sensitive : Bool) (s : String) : String :=
  if case_sensitive then s else strLower s

/-- Whether the escaped literal `pat` matches `text` at offset `i`
(`re.escape` makes the compiled pattern a literal substring test). -/
def matchesAt (pat text : List Char) (i : Nat) : Bool :=
  pat.isPrefixOf (text.drop i)

/-- `regex.search(line) is not None` for the escaped literal pattern:
substring containment. -/
def hasMatch (pat text : List Char) : Bool :=
  (List.range (text.length + 1)).any (fun i => matchesAt pat text i)

/-- The next match offset at or after `i`, as `re` scanning resumes. -/
def nextMatch (pat text : List Char) (i : Nat) : Option Nat :=
  (List.range' i (text.length + 1 - i)).find? (fun j => matchesAt pat text j)

/-- Fuel-driven loop of `regex.finditer(line)`: non-overlapping matches left
to right, each advancing by the pattern length (at least one). -/
def findPositionsAux (pat text : List Char) : Nat → Nat → List (Nat × Nat)
  | _, 0 => []
  | i, fuel + 1 =>
    match nextMatch pat text i with
    | none => []
    | some j => (j, j + pat.length) :: findPositionsAux pat text (j + max pat.length 1) fuel

/-- `[(m.start(), m.end()) for m in regex.finditer(line)]`. -/
def findPositions (pat text : List Char) : List (Nat × Nat) :=
  findPositionsAux pat text 0 (text.length + 2)

/-- `SearchEngine._extract_context`: up to two raw lines before and after the
match, clipped at the file boundaries (Python slices
`lines[max(0, i-2):i]` and `lines[i+1:min(len, i+3)]`). -/
def extractContext (lines : List String) (idx : Nat) : List String × List String :=
  ((lines.take idx).drop (idx - 2), (lines.drop (idx + 1)).take 2)

/-- `SearchEngine._search_in_file`: classify the file (a `ValueError` yields
no results), extract its filename date, and emit one `SearchResult` per line
the escaped literal pattern matches. -/
def SearchEngine.searchInFile (file : JFile) (pattern : String) (case_sensitive : Bool) :
    List SearchResult :=
  match get_entry_type file.path with
  | none => []
  | some entry_type =>
    let entry_date := extract_date_from_filename file.path
    let pat := (foldCase case_sensitive pattern).data
    file.lines.enum.filterMap (fun p =>
      let line := rstripNL p.2
      let text := (foldCase case_sensitive line).data
      if hasMatch pat text then
        some { file_path := file.path
               entry_type := entry_type
               entry_date := entry_date
               line_number := p.1 + 1
               matched_line := line
               context_before := (extractContext file.lines p.1).1.map rstripNL
               context_after := (extractContext file.lines p.1).2.map rstripNL
               match_positions := findPositions pat text }
      else none)

/-- The accumulation loop of `SearchEngine.search`: extend per file in scan
order; when a (truthy) limit is reached, truncate to it and stop. -/
def searchLoop (query : SearchQuery) : List JFile → List SearchResult → List SearchResult
  | [], acc => acc
  | f :: rest, acc =>
    let acc' := acc ++ SearchEngine.searchInFile f query.search_text query.case_sensitive
    match query.limit with
    | some n => if 0 < n ∧ n ≤ acc'.length then acc'.take n else searchLoop query rest acc'
    | none => searchLoop query rest acc'

/-- The `FileScanner.scan` call made by `SearchEngine.search`
(`entry_types=query.entry_types if query.entry_types else None`). -/
def searchCandidates (fs : List JFile) (query : SearchQuery) : List JFile :=
  FileScanner.scan fs
    (if query.entry_types.isEmpty then none else some query.entry_types)
    query.date_after query.date_before

/-- `SearchEngine.search` over the corpus `fs`; `elapsedMs` is the measured
wall-clock duration. -/
def SearchEngine.search (fs : List JFile) (elapsedMs : Nat) (query : SearchQuery) :
    SearchResultSet :=
  let files := searchCandidates fs query
  let all_results := searchLoop query files []
  { results := all_results
    query := query
    total_count := all_results.length
    execution_time_ms := elapsedMs
    files_scanned := files.length }

/-- `SearchEngine.search_cross_references`: trim the reference, strip a
trailing `.md`, reject an empty reference (`ValueError`, modelled `none`),
reject an inverted date range (the Pydantic validator of the constructed
`SearchQuery`), then search for the literal prefix `[[<reference>`. -/
def SearchEngine.search_cross_references (fs : List JFile) (elapsedMs : Nat)
    (reference : String) (entry_types : Option (List EntryType))
    (date_after date_before : Option Date) : Option SearchResultSet :=
  let normalized :=
    let t := strTrim reference
    if strEndsWith t ".md" then strDropRight t 3 else t
  if normalized == "" then none
  else if (match date_after, date_before with
           | some da, some db => Date.blt db da
           | _, _ => false) then none
  else
    let query : SearchQuery :=
      { search_text := "[[" ++ normalized
        entry_types :=
          match entry_types with
          | some ets => if ets.isEmpty then EntryType.all else ets
          | none => EntryType.all
        date_after := date_after
        date_before := date_before }
    some (SearchEngine.search fs elapsedMs query)


/-- The Python slice `l[-n:]` on a list: for `n = 0` it is `l[0:]`, the whole
list; otherwise the last `min n l.length` elements. -/
def pyLastSlice (l : List String) (n : Nat) : List String :=
  if n = 0 then l else l.drop (l.length - n)

/-- `SearchResult.get_context(lines_before, lines_after)`:
`context_before[-lines_before:] + [matched_line] + context_after[:lines_after]`
joined with newlines. -/
def SearchResult.get_context (r : SearchResult) (lines_before lines_after : Nat) : String :=
  String.intercalate "\n"
    (pyLastSlice r.context_before lines_before ++ [r.matched_line] ++
      r.context_after.take lines_after)

/-- `strftime("%B")`: full month name. -/
def monthName : Nat → String
  | 1 => "January"
  | 2 => "February"
  | 3 => "March"
  | 4 => "April"
  | 5 => "May"
  | 6 => "June"
  | 7 => "July"
  | 8 => "August"
  | 9 => "September"
  | 10 => "October"
  | 11 => "November"
  | _ => "December"

/-- Zero-padded two-digit rendering (`%d`, and the day/month of `str(date)`). -/
def pad2Str (n : Nat) : String :=
  if n < 10 then "0" ++ toString n else toString n

/-- Zero-padded four-digit rendering (the year of `str(date)`). -/
def pad4Str (n : Nat) : String :=
  if n < 10 then "000" ++ toString n
  else if n < 100 then "00" ++ toString n
  else if n < 1000 then "0" ++ toString n
  else toString n

/-- `str(date)`: ISO `YYYY-MM-DD`. -/
def Date.isoStr (d : Date) : String :=
  pad4Str d.year ++ "-" ++ pad2Str d.month ++ "-" ++ pad2Str d.day

/-- `SearchResult.display_date`: `strftime("%B %d, %Y")` or `"No date"`. -/
def SearchResult.display_date (r : SearchResult) : String :=
  match r.entry_date with
  | some d => monthName d.month ++ " " ++ pad2Str d.day ++ ", " ++ toString d.year
  | none => "No date"

/-- `file_path.name` of a result. -/
def fileName (path : List String) : String :=
  (path.getLast?).getD ""

/-- `date.min` in Python: 0001-01-01, the sort key of a dateless result. -/
def keyDate (r : SearchResult) : Date :=
  r.entry_date.getD ⟨1, 1, 1⟩

/-- The comparator realised by `sorted(key=lambda r: r.entry_date or date.min,
reverse=descending)`. -/
def sortKey (descending : Bool) (a b : SearchResult) : Bool :=
  if descending then Date.ble (keyDate b) (keyDate a) else Date.ble (keyDate a) (keyDate b)

/-- `SearchResultSet.sort_by_date`: Python's `sorted` is a stable sort, so it
is extensionally `List.mergeSort` under the same comparator; all other fields
are copied into the new result set. -/
def SearchResultSet.sort_by_date (rs : SearchResultSet) (descending : Bool) : SearchResultSet :=
  { results := rs.results.mergeSort (sortKey descending)
    query := rs.query
    total_count := rs.total_count
    execution_time_ms := rs.execution_time_ms
    files_scanned := rs.files_scanned }

/-- `len(set(r.file_path for r in results))`. -/
def distinctFileCount (results : List SearchResult) : Nat :=
  (results.map (fun r => r.file_path)).dedup.length

/-- The `filters` list built by `SearchResultSet.export_to_markdown`: only
`date_after`, `date_before` and a proper subset of entry types are rendered
(`case_sensitive` and `limit` are not inspected by the exporter). -/
def exportFilters (q : SearchQuery) : List String :=
  (match q.date_after with
   | some d => ["After " ++ d.isoStr]
   | none => []) ++
  (match q.date_before with
   | some d => ["Before " ++ d.isoStr]
   | none => []) ++
  (if !q.entry_types.isEmpty && q.entry_types.length < EntryType.all.length then
     ["Types: " ++ String.intercalate ", " (q.entry_types.map EntryType.value)]
   else [])

/-- The per-result section written by `export_to_markdown`. -/
def exportResultSection (r : SearchResult) : List String :=
  ["## " ++ fileName r.file_path ++ " (Line " ++ toString r.line_number ++ ")",
   "",
   "**Date**: " ++ r.display_date,
   "",
   "### Context",
   "",
   "```markdown",
   r.get_context 2 2,
   "```",
   "",
   "---",
   ""]

/-- `SearchResultSet.export_to_markdown`: the list of lines joined with
newlines and written to the output file; `now` is the
`datetime.now().strftime("%Y-%m-%d %H:%M:%S")` timestamp. -/
def export_to_markdown_lines (rs : SearchResultSet) (now : String) : List String :=
  ["# Search Results",
   "",
   "**Query**: \"" ++ rs.query.search_text ++ "\""] ++
  (if (exportFilters rs.query).isEmpty then []
   else ["**Filters**: " ++ String.intercalate ", " (exportFilters rs.query)]) ++
  ["**Results**: " ++ toString rs.total_count ++ " matches in " ++
     toString (distinctFileCount rs.results) ++ " files",
   "**Generated**: " ++ now,
   "",
   "---",
   ""] ++
  (rs.results.map exportResultSection).flatten

/-- All matches of a query over a list of files in order, before any limit
truncation: the concatenation of `_search_in_file` outputs. -/
def allMatches (query : SearchQuery) (files : List JFile) : List SearchResult :=
  (files.map (fun f => SearchEngine.searchInFile f query.search_text query.case_sensitive)).flatten

/-- Case-sensitive literal substring containment, the reading of "the
matched line contains the literal text". -/
def containsSub (sub s : String) : Bool :=
  hasMatch sub.data s.data

/-- Number of files the search loop actually reads before the limit stops
it (instrumentation of `searchLoop`; not part of the source). -/
def searchLoopReads (query : SearchQuery) : List JFile → List SearchResult → Nat
  | [], _ => 0
  | f :: rest, acc =>
    let acc' := acc ++ SearchEngine.searchInFile f query.search_text query.case_sensitive
    match query.limit with
    | some n => if 0 < n ∧ n ≤ acc'.length then 1 else 1 + searchLoopReads query rest acc'
    | none => 1 + searchLoopReads query rest acc'

/-- Files actually opened by `SearchEngine.search` on this corpus. -/
def filesRead (fs : List JFile) (query : SearchQuery) : Nat :=
  searchLoopReads query (searchCandidates fs query) []

theorem searchLoop_limit_none (query : SearchQuery) (h : query.limit = none) :
    ∀ (files : List JFile) (acc : List SearchResult),
      searchLoop query files acc = acc ++ allMatches query files := by
  intro files
  induction files with
  | nil =>
    intro acc
    simp [searchLoop, allMatches]
  | cons f rest ih =>
    intro acc
    simp only [searchLoop, h]
    rw [ih]
    simp [allMatches]

theorem searchLoop_limit_some (query : SearchQuery) (n : Nat) (h : query.limit = some n) :
    ∀ (files : List JFile) (acc : List SearchResult), acc.length < n →
      searchLoop query files acc = (acc ++ allMatches query files).take n := by
  intro files
  induction files with
  | nil =>
    intro acc hacc
    simp only [searchLoop, allMatches, List.map_nil, List.flatten_nil, List.append_nil]
    exact (List.take_of_length_le (le_of_lt hacc)).symm
  | cons f rest ih =>
    intro acc hacc
    simp only [searchLoop, h, allMatches, List.map_cons, List.flatten_cons]
    by_cases hlen : n ≤ (acc ++ SearchEngine.searchInFile f query.search_text query.case_sensitive).length
    · rw [if_pos ⟨Nat.lt_of_le_of_lt (Nat.zero_le _) hacc, hlen⟩]
      rw [← List.append_assoc, List.take_append_of_le_length hlen]
    · rw [if_neg (fun hc => hlen hc.2)]
      rw [ih _ (Nat.lt_of_not_le hlen)]
      simp [allMatches, List.append_assoc]

/-- C1.  With `limit = N` the search returns the first `N` of the matches
accumulated in scan order (so at most `N` results, exactly `N` when more
than `N` matching lines exist, with the final file's contribution truncated),
and `total_count` equals the number of returned results; without a limit all
accumulated matches are returned and `total_count` equals their number. -/
theorem c1_search_limit (fs : List JFile) (elapsedMs : Nat) (query : SearchQuery)
    (hv : query.validB = true) :
    (∀ n, query.limit = some n →
      (SearchEngine.search fs elapsedMs query).results =
        (allMatches query (searchCandidates fs query)).take n ∧
      (SearchEngine.search fs elapsedMs query).results.length ≤ n ∧
      (SearchEngine.search fs elapsedMs query).total_count =
        (SearchEngine.search fs elapsedMs query).results.length ∧
      (n < (allMatches query (searchCandidates fs query)).length →
        (SearchEngine.search fs elapsedMs query).total_count = n)) ∧
    (query.limit = none →
      (SearchEngine.search fs elapsedMs query).results =
        allMatches query (searchCandidates fs query) ∧
      (SearchEngine.search fs elapsedMs query).total_count =
        (SearchEngine.search fs elapsedMs query).results.length) := by
  constructor
  · intro n hn
    have hpos : 0 < n := by
      have hv2 := hv
      unfold SearchQuery.validB at hv2
      rw [hn] at hv2
      simp only [Bool.and_eq_true, decide_eq_true_eq] at hv2
      exact hv2.1.2
    have hloop := searchLoop_limit_some query n hn (searchCandidates fs query) [] (by simpa using hpos)
    have hres : (SearchEngine.search fs elapsedMs query).results =
        (allMatches query (searchCandidates fs query)).take n := by
      simp only [SearchEngine.search]
      rw [hloop]
      simp
    refine ⟨hres, ?_, rfl, ?_⟩
    · rw [hres, List.length_take]
      exact Nat.min_le_left _ _
    · intro hlt
      show (searchLoop query (searchCandidates fs query) []).length = n
      have : (SearchEngine.search fs elapsedMs query).results =
          searchLoop query (searchCandidates fs query) [] := rfl
      rw [← this, hres, List.length_take]
      exact Nat.min_eq_left (Nat.le_of_lt hlt)
  · intro hn
    have hloop := searchLoop_limit_none query hn (searchCandidates fs query) []
    have hres : (SearchEngine.search fs elapsedMs query).results =
        allMatches query (searchCandidates fs query) := by
      simp only [SearchEngine.search]
      rw [hloop]
      simp
    exact ⟨hres, rfl⟩

/-- Concrete two-file corpus (both files match "beta"). -/
def fileA : JFile :=
  { path := ["daily", "2024-11-01.md"], lines := ["alpha beta\n", "second\n"] }

/-- Second concrete file of the corpus. -/
def fileB : JFile :=
  { path := ["daily", "2024-11-02.md"], lines := ["beta gamma\n"] }

/-- Concrete limited query over the corpus. -/
def c1q : SearchQuery := { search_text := "beta", limit := some 1 }

theorem c1_search_limit_witness :
    c1q.validB = true ∧
    (SearchEngine.search [fileA, fileB] 5 c1q).results.length ≤ 1 ∧
    (SearchEngine.search [fileA, fileB] 5 c1q).total_count = 1 :=
  ⟨by decide,
   ((c1_search_limit [fileA, fileB] 5 c1q (by decide)).1 1 rfl).2.1,
   ((c1_search_limit [fileA, fileB] 5 c1q (by decide)).1 1 rfl).2.2.2 (by decide)⟩

theorem mem_searchLoop (query : SearchQuery) :
    ∀ (files : List JFile) (acc : List SearchResult) (r : SearchResult),
      r ∈ searchLoop query files acc → r ∈ acc ++ allMatches query files := by
  intro files
  induction files with
  | nil =>
    intro acc r hr
    simpa [searchLoop, allMatches] using hr
  | cons f rest ih =>
    intro acc r hr
    simp only [searchLoop] at hr
    cases hq : query.limit with
    | some n =>
      rw [hq] at hr
      dsimp only at hr
      split at hr
      · have h1 : r ∈ acc ++ SearchEngine.searchInFile f query.search_text query.case_sensitive :=
          List.Sublist.mem hr (List.take_sublist _ _)
        simp only [allMatches, List.map_cons, List.flatten_cons, ← List.append_assoc]
        exact List.mem_append_left _ h1
      · have h2 := ih _ r hr
        simp only [allMatches, List.map_cons, List.flatten_cons] at h2 ⊢
        simpa [List.append_assoc] using h2
    | none =>
      rw [hq] at hr
      dsimp only at hr
      have h2 := ih _ r hr
      simp only [allMatches, List.map_cons, List.flatten_cons] at h2 ⊢
      simpa [List.append_assoc] using h2

theorem mem_search_results (fs : List JFile) (elapsedMs : Nat) (query : SearchQuery)
    (r : SearchResult) (hr : r ∈ (SearchEngine.search fs elapsedMs query).results) :
    r ∈ allMatches query (searchCandidates fs query) := by
  have h := mem_searchLoop query (searchCandidates fs query) [] r hr
  simpa using h

theorem mem_searchInFile_spec (f : JFile) (pattern : String) (cs : Bool) (r : SearchResult)
    (hr : r ∈ SearchEngine.searchInFile f pattern cs) :
    get_entry_type f.path = some r.entry_type ∧
    r.file_path = f.path ∧
    hasMatch (foldCase cs pattern).data (foldCase cs r.matched_line).data = true := by
  unfold SearchEngine.searchInFile at hr
  match h : get_entry_type f.path with
  | none =>
    rw [h] at hr
    simp at hr
  | some et =>
    rw [h] at hr
    rw [List.mem_filterMap] at hr
    obtain ⟨a, -, ha⟩ := hr
    dsimp only at ha
    split at ha
    · rename_i hmatch
      cases ha
      exact ⟨rfl, rfl, hmatch⟩
    · exact absurd ha (by simp)

/-- C3.  Every result produced by `SearchEngine.search` for a valid query
has an entry type belonging to the query's `entry_types`: the scan keeps only
files whose classification lies in the filter, and `_search_in_file` stamps
each result with that same classification. -/
theorem c3_entry_type_member (fs : List JFile) (elapsedMs : Nat) (query : SearchQuery)
    (hv : query.validB = true) (r : SearchResult)
    (hr : r ∈ (SearchEngine.search fs elapsedMs query).results) :
    r.entry_type ∈ query.entry_types := by
  have hall := mem_search_results fs elapsedMs query r hr
  unfold allMatches at hall
  rw [List.mem_flatten] at hall
  obtain ⟨sub, hsub, hrsub⟩ := hall
  rw [List.mem_map] at hsub
  obtain ⟨f, hf, rfl⟩ := hsub
  have hspec := mem_searchInFile_spec f query.search_text query.case_sensitive r hrsub
  have hne : query.entry_types.isEmpty = false := by
    unfold SearchQuery.validB at hv
    simp only [Bool.and_eq_true] at hv
    have hb := hv.1.1.2
    simpa using hb
  unfold searchCandidates at hf
  rw [hne] at hf
  simp only [Bool.false_eq_true, if_false] at hf
  unfold FileScanner.scan at hf
  rw [List.mem_filter] at hf
  have htype := hf.2
  simp only [Bool.and_eq_true] at htype
  have htp := htype.1
  unfold typePass at htp
  dsimp only at htp
  rw [hne] at htp
  simp only [Bool.false_eq_true, if_false] at htp
  rw [hspec.1] at htp
  simpa using htp

/-- Concrete unlimited query over the corpus. -/
def c3q : SearchQuery := { search_text := "beta" }

/-- The first result the engine produces on the concrete corpus. -/
def c3r : SearchResult :=
  { file_path := ["daily", "2024-11-01.md"]
    entry_type := .DAILY
    entry_date := some ⟨2024, 11, 1⟩
    line_number := 1
    matched_line := "alpha beta"
    context_before := []
    context_after := ["second"]
    match_positions := [(6, 10)] }

theorem c3_entry_type_member_witness :
    c3q.validB = true ∧
    c3r ∈ (SearchEngine.search [fileA, fileB] 5 c3q).results ∧
    c3r.entry_type ∈ c3q.entry_types :=
  ⟨by decide, by decide,
   c3_entry_type_member [fileA, fileB] 5 c3q (by decide) c3r (by decide)⟩

theorem scr_people_sarah (fs : List JFile) (e : Nat) (et : Option (List EntryType))
    (da db : Option Date) :
    SearchEngine.search_cross_references fs e "people/sarah" et da db =
    (if (match da, db with
         | some a, some b => Date.blt b a
         | _, _ => false) then none
     else some (SearchEngine.search fs e
       { search_text := "[[people/sarah"
         entry_types :=
           match et with
           | some ets => if ets.isEmpty then EntryType.all else ets
           | none => EntryType.all
         date_after := da
         date_before := db })) := rfl

/-- Concrete corpus for the cross-reference claims: the wiki-link differs in
case from the query reference. -/
def crossRefFile : JFile :=
  { path := ["daily", "2024-11-01.md"], lines := ["Met [[People/Sarah]] today\n"] }

/-- C2 counterexample.  `search_cross_references` builds its query with the
default `case_sensitive=False`, so a line whose wiki-link differs in case is
returned although it does not contain the literal characters
`[[people/sarah`. -/
theorem c2_cross_reference_counterexample :
    (SearchEngine.search_cross_references [crossRefFile] 0 "people/sarah" none none none).map
        (fun rs => rs.results.map (fun r => r.matched_line)) =
      some [["Met [[People/Sarah]] today"]].flatten ∧
    containsSub "[[people/sarah" "Met [[People/Sarah]] today" = false := by
  decide

/-- C2 amended.  Every result of `search_cross_references("people/sarah")`
has a matched line that contains `[[people/sarah` up to ASCII case: the
lower-cased matched line contains the literal `[[people/sarah`. -/
theorem c2_cross_reference_amended (fs : List JFile) (elapsedMs : Nat)
    (entry_types : Option (List EntryType)) (date_after date_before : Option Date)
    (rs : SearchResultSet)
    (hrs : SearchEngine.search_cross_references fs elapsedMs "people/sarah"
             entry_types date_after date_before = some rs)
    (r : SearchResult) (hr : r ∈ rs.results) :
    containsSub "[[people/sarah" (strLower r.matched_line) = true := by
  rw [scr_people_sarah] at hrs
  split at hrs
  · exact absurd hrs (by simp)
  · cases hrs
    have hall := mem_search_results fs elapsedMs _ r hr
    unfold allMatches at hall
    rw [List.mem_flatten] at hall
    obtain ⟨sub, hsub, hrsub⟩ := hall
    rw [List.mem_map] at hsub
    obtain ⟨f, -, rfl⟩ := hsub
    have hspec := (mem_searchInFile_spec f _ _ r hrsub).2.2
    have hlow : foldCase false "[[people/sarah" = "[[people/sarah" := by decide
    simpa [foldCase, hlow] using hspec

/-- The query derived from the reference `people/sarah`. -/
def c2q : SearchQuery := { search_text := "[[people/sarah" }

/-- The result the engine produces on `crossRefFile`. -/
def c2r : SearchResult :=
  { file_path := ["daily", "2024-11-01.md"]
    entry_type := .DAILY
    entry_date := some ⟨2024, 11, 1⟩
    line_number := 1
    matched_line := "Met [[People/Sarah]] today"
    context_before := []
    context_after := []
    match_positions := [(4, 18)] }

theorem c2_cross_reference_amended_witness :
    SearchEngine.search_cross_references [crossRefFile] 0 "people/sarah" none none none =
      some (SearchEngine.search [crossRefFile] 0 c2q) ∧
    c2r ∈ (SearchEngine.search [crossRefFile] 0 c2q).results ∧
    containsSub "[[people/sarah" (strLower c2r.matched_line) = true :=
  ⟨by decide, by decide,
   c2_cross_reference_amended [crossRefFile] 0 none none none
     (SearchEngine.search [crossRefFile] 0 c2q) (by decide) c2r (by decide)⟩

/-- A result with one context-before line, for evaluating `get_context`. -/
def c5r : SearchResult :=
  { file_path := ["daily", "x.md"]
    entry_type := .DAILY
    entry_date := none
    line_number := 3
    matched_line := "target line"
    context_before := ["before1"]
    context_after := ["after1"]
    match_positions := [] }

/-- C5.  `get_context` evaluated at `lines_before = 0`: the Python slice
`context_before[-0:]` is `context_before[0:]`, the whole list, so the
context-before line is still included although zero lines were requested
(the claim and the function's own docstring say it must not be). -/
theorem c5_get_context_zero_before_bug :
    c5r.get_context 0 0 = "before1\ntarget line" ∧
    c5r.get_context 0 0 ≠ "target line" ∧
    c5r.get_context 1 0 = "before1\ntarget line" ∧
    c5r.get_context 1 1 = "before1\ntarget line\nafter1" := by
  decide

/-- C9 counterexample.  Two enumerations of the same two files (a
permutation of one another) make `FileScanner.scan` return the same files in
different orders: the output order is inherited from the underlying
directory enumeration, not canonicalised. -/
theorem c9_scan_order_counterexample :
    List.Perm [fileA, fileB] [fileB, fileA] ∧
    FileScanner.scan [fileA, fileB] none none none = [fileA, fileB] ∧
    FileScanner.scan [fileB, fileA] none none none = [fileB, fileA] ∧
    ¬ FileScanner.scan [fileA, fileB] none none none =
        FileScanner.scan [fileB, fileA] none none none :=
  ⟨List.Perm.swap fileB fileA [], by decide, by decide, by decide⟩

/-- C9 amended.  `FileScanner.scan` is a pure function of the enumeration
produced by `rglob`: its output is that enumeration filtered in place (a
sublist), and the collection of returned files is independent of the
enumeration order (permutation-invariant); the order itself follows the
enumeration, as the counterexample shows. -/
theorem c9_scan_deterministic_amended (fs fs' : List JFile)
    (ets : Option (List EntryType)) (da db : Option Date) (hperm : fs.Perm fs') :
    (FileScanner.scan fs ets da db).Sublist fs ∧
    (FileScanner.scan fs ets da db).Perm (FileScanner.scan fs' ets da db) :=
  ⟨List.filter_sublist fs, hperm.filter _⟩

theorem c9_scan_deterministic_amended_witness :
    List.Perm [fileA, fileB] [fileB, fileA] ∧
    (FileScanner.scan [fileA, fileB] none none none).Sublist [fileA, fileB] ∧
    (FileScanner.scan [fileA, fileB] none none none).Perm
      (FileScanner.scan [fileB, fileA] none none none) :=
  ⟨List.Perm.swap fileB fileA [],
   (c9_scan_deterministic_amended [fileA, fileB] [fileB, fileA] none none none
      (List.Perm.swap fileB fileA [])).1,
   (c9_scan_deterministic_amended [fileA, fileB] [fileB, fileA] none none none
      (List.Perm.swap fileB fileA [])).2⟩

theorem searchLoopReads_le (query : SearchQuery) :
    ∀ (files : List JFile) (acc : List SearchResult),
      searchLoopReads query files acc ≤ files.length := by
  intro files
  induction files with
  | nil =>
    intro acc
    simp [searchLoopReads]
  | cons f rest ih =>
    intro acc
    simp only [searchLoopReads, List.length_cons]
    cases query.limit with
    | some n =>
      dsimp only
      split
      · omega
      · have := ih (acc ++ SearchEngine.searchInFile f query.search_text query.case_sensitive)
        omega
    | none =>
      dsimp only
      have := ih (acc ++ SearchEngine.searchInFile f query.search_text query.case_sensitive)
      omega

/-- C10.  `files_scanned` always equals the number of candidate files the
initial `FileScanner.scan` produced, not the number of files the loop
actually read; on the concrete corpus a limit of 1 stops reading after the
first file, yet `files_scanned` reports both candidates. -/
theorem c10_files_scanned_counts_candidates (fs : List JFile) (elapsedMs : Nat)
    (query : SearchQuery) :
    (SearchEngine.search fs elapsedMs query).files_scanned =
      (searchCandidates fs query).length ∧
    filesRead fs query ≤ (searchCandidates fs query).length ∧
    ((SearchEngine.search [fileA, fileB] 5 c1q).files_scanned = 2 ∧
      filesRead [fileA, fileB] c1q = 1 ∧
      (SearchEngine.search [fileA, fileB] 5 c1q).results.length = 1) :=
  ⟨rfl, searchLoopReads_le query (searchCandidates fs query) [], by decide⟩

/-- Query with case-sensitivity and a limit set. -/
def c4q : SearchQuery := { search_text := "hello", case_sensitive := true, limit := some 5 }

/-- Same query with neither case-sensitivity nor a limit set. -/
def c4q' : SearchQuery := { search_text := "hello" }

/-- Result set under the case-sensitive, limited query. -/
def c4set : SearchResultSet :=
  { results := [c3r], query := c4q, total_count := 1, execution_time_ms := 7, files_scanned := 1 }

/-- Same result set under the insensitive, unlimited query. -/
def c4set' : SearchResultSet :=
  { results := [c3r], query := c4q', total_count := 1, execution_time_ms := 7, files_scanned := 1 }

/-- C4 counterexample.  The exporter inspects neither `case_sensitive` nor
`limit`: two result sets whose queries differ exactly in those two active
filters export to identical markdown, so those filters are never rendered. -/
theorem c4_export_counterexample :
    c4q.case_sensitive ≠ c4q'.case_sensitive ∧
    c4q.limit ≠ c4q'.limit ∧
    export_to_markdown_lines c4set "2024-11-15 10:00:00" =
      export_to_markdown_lines c4set' "2024-11-15 10:00:00" := by
  decide

/-- C4 amended.  The exported markdown starts with `# Search Results`,
contains the query text, the total/distinct-file counts and the
generation timestamp, renders the date and entry-type filters exactly when
they are set (entry types only when a proper subset), ends with one
`## `-headed section per result in order — but never renders
case-sensitivity or the limit (the output is invariant under them). -/
theorem c4_export_amended (rs : SearchResultSet) (now : String) :
    (export_to_markdown_lines rs now).head? = some "# Search Results" ∧
    ("**Query**: \"" ++ rs.query.search_text ++ "\"") ∈ export_to_markdown_lines rs now ∧
    ("**Results**: " ++ toString rs.total_count ++ " matches in " ++
       toString (distinctFileCount rs.results) ++ " files") ∈ export_to_markdown_lines rs now ∧
    ("**Generated**: " ++ now) ∈ export_to_markdown_lines rs now ∧
    (exportFilters rs.query = [] ↔
      (rs.query.date_after = none ∧ rs.query.date_before = none ∧
        (rs.query.entry_types = [] ∨ 4 ≤ rs.query.entry_types.length))) ∧
    (∀ d, rs.query.date_after = some d → ("After " ++ d.isoStr) ∈ exportFilters rs.query) ∧
    (∀ d, rs.query.date_before = some d → ("Before " ++ d.isoStr) ∈ exportFilters rs.query) ∧
    (rs.query.entry_types ≠ [] → rs.query.entry_types.length < 4 →
      ("Types: " ++ String.intercalate ", " (rs.query.entry_types.map EntryType.value)) ∈
        exportFilters rs.query) ∧
    (exportFilters rs.query ≠ [] →
      ("**Filters**: " ++ String.intercalate ", " (exportFilters rs.query)) ∈
        export_to_markdown_lines rs now) ∧
    (∀ cs lim, export_to_markdown_lines
        { rs with query := { rs.query with case_sensitive := cs, limit := lim } } now =
      export_to_markdown_lines rs now) ∧
    (rs.results.map exportResultSection).flatten.IsSuffix (export_to_markdown_lines rs now) ∧
    (∀ r : SearchResult, (exportResultSection r).head? =
      some ("## " ++ fileName r.file_path ++ " (Line " ++ toString r.line_number ++ ")")) := by
  refine ⟨?_, ?_, ?_, ?_, ?_, ?_, ?_, ?_, ?_, ?_, ?_, ?_⟩
  · rfl
  · simp [export_to_markdown_lines]
  · simp [export_to_markdown_lines]
  · simp [export_to_markdown_lines]
  · cases hda : rs.query.date_after <;> cases hdb : rs.query.date_before <;>
      by_cases hempty : rs.query.entry_types.isEmpty <;>
      by_cases hlen : rs.query.entry_types.length < 4 <;>
      simp_all [exportFilters, EntryType.all, List.isEmpty_iff]
  · intro d hd
    simp [exportFilters, hd]
  · intro d hd
    simp [exportFilters, hd]
  · intro hne hlt
    simp [exportFilters, EntryType.all, List.isEmpty_iff, hne, hlt]
  · intro hne
    have h1 : (exportFilters rs.query).isEmpty = false := by
      simpa [List.isEmpty_iff] using hne
    simp [export_to_markdown_lines, h1]
  · intro cs lim
    rfl
  · exact List.suffix_append _ _
  · intro r
    rfl

/-- Query with an active date_after filter. -/
def c4wq : SearchQuery := { search_text := "beta", date_after := some ⟨2024, 11, 5⟩ }

/-- Result set carrying the active date filter. -/
def c4wset : SearchResultSet :=
  { results := [c3r], query := c4wq, total_count := 1, execution_time_ms := 3, files_scanned := 2 }

theorem c4_export_amended_witness :
    ("After " ++ (⟨2024, 11, 5⟩ : Date).isoStr) ∈ exportFilters c4wq ∧
    ("**Filters**: " ++ String.intercalate ", " (exportFilters c4wq)) ∈
      export_to_markdown_lines c4wset "2024-11-15 10:00:00" ∧
    (export_to_markdown_lines c4wset "2024-11-15 10:00:00").head? = some "# Search Results" := by
  have h := c4_export_amended c4wset "2024-11-15 10:00:00"
  exact ⟨h.2.2.2.2.2.1 _ rfl, h.2.2.2.2.2.2.2.2.1 (by decide), h.1⟩

/-- Zero-padded four-digit character rendering of a year. -/
def pad4 (n : Nat) : List Char :=
  [Nat.digitChar (n / 1000 % 10), Nat.digitChar (n / 100 % 10),
   Nat.digitChar (n / 10 % 10), Nat.digitChar (n % 10)]

/-- Zero-padded two-digit character rendering of a month or day. -/
def pad2 (n : Nat) : List Char :=
  [Nat.digitChar (n / 10 % 10), Nat.digitChar (n % 10)]

/-- The canonical absolute date string `YYYY-MM-DD` for (y, m, d). -/
def absDateString (y m d : Nat) : String :=
  String.mk (pad4 y ++ '-' :: (pad2 m ++ '-' :: pad2 d))

/-- The decimal numeral of `n` (what Python renders as `f"{n}"`). -/
def decimalString (n : Nat) : String :=
  String.mk (((Nat.digits 10 n).reverse).map Nat.digitChar)

theorem digitChar_isDigit {k : Nat} (hk : k < 10) : (Nat.digitChar k).isDigit = true := by
  interval_cases k <;> decide

theorem charVal_digitChar {k : Nat} (hk : k < 10) : charVal (Nat.digitChar k) = k := by
  interval_cases k <;> decide

theorem absDateParse_absDateString (y m d : Nat) (hy : y ≤ 9999) (hm : m ≤ 99) (hd : d ≤ 99) :
    absDateParse (absDateString y m d).data = some (y, (m, d)) := by
  have hdig : ∀ x : Nat, (Nat.digitChar (x % 10)).isDigit = true :=
    fun x => digitChar_isDigit (Nat.mod_lt _ (by norm_num))
  have hcv : ∀ x : Nat, charVal (Nat.digitChar (x % 10)) = x % 10 :=
    fun x => charVal_digitChar (Nat.mod_lt _ (by norm_num))
  show absDateParse
      [Nat.digitChar (y / 1000 % 10), Nat.digitChar (y / 100 % 10),
       Nat.digitChar (y / 10 % 10), Nat.digitChar (y % 10), '-',
       Nat.digitChar (m / 10 % 10), Nat.digitChar (m % 10), '-',
       Nat.digitChar (d / 10 % 10), Nat.digitChar (d % 10)] = some (y, (m, d))
  rw [absDateParse]
  rw [if_pos (by simp [hdig])]
  rw [hcv, hcv, hcv, hcv, hcv, hcv, hcv, hcv]
  refine congrArg some ?_
  refine Prod.ext ?_ (Prod.ext ?_ ?_) <;> dsimp only <;> omega

theorem foldl_digitChars (L : List Nat) (hL : ∀ x ∈ L, x < 10) :
    ∀ acc : Nat,
      List.foldl (fun a c => a * 10 + charVal c) acc ((L.reverse).map Nat.digitChar) =
        acc * 10 ^ L.length + Nat.ofDigits 10 L := by
  induction L with
  | nil =>
    intro acc
    simp [Nat.ofDigits_nil]
  | cons x L' ih =>
    intro acc
    have hx : x < 10 := hL x (List.mem_cons_self _ _)
    have hL' : ∀ z ∈ L', z < 10 := fun z hz => hL z (List.mem_cons_of_mem _ hz)
    simp only [List.reverse_cons, List.map_append, List.foldl_append, List.map_cons,
      List.map_nil, List.foldl_cons, List.foldl_nil]
    rw [ih hL']
    rw [charVal_digitChar hx]
    simp only [Nat.ofDigits_cons, List.length_cons, pow_succ]
    ring

theorem digitsToNat_decimalString (n : Nat) :
    digitsToNat (decimalString n).data = n := by
  unfold digitsToNat decimalString
  have h := foldl_digitChars (Nat.digits 10 n)
    (fun x hx => Nat.digits_lt_base (by norm_num) hx) 0
  simpa [Nat.ofDigits_digits] using h

theorem decimalString_all_digits (n : Nat) :
    (decimalString n).data.all Char.isDigit = true := by
  rw [List.all_eq_true]
  intro c hc
  unfold decimalString at hc
  simp only [List.mem_map, List.mem_reverse] at hc
  obtain ⟨x, hx, rfl⟩ := hc
  exact digitChar_isDigit (Nat.digits_lt_base (by norm_num) hx)

theorem decimalString_ne_nil {n : Nat} (hn : 0 < n) :
    (decimalString n).data.isEmpty = false := by
  unfold decimalString
  have h : Nat.digits 10 n ≠ [] := Nat.digits_ne_nil_iff_ne_zero.2 (by omega)
  rcases hm : List.map Nat.digitChar (Nat.digits 10 n).reverse with - | ⟨a, l⟩
  · rw [List.map_eq_nil_iff, List.reverse_eq_nil_iff] at hm
    exact absurd hm h
  · rfl

theorem absDateParse_some_last {cs : List Char} {t : Nat × Nat × Nat}
    (h : absDateParse cs = some t) :
    ∃ c, cs.getLast? = some c ∧ c.isDigit = true := by
  unfold absDateParse at h
  split at h
  · rename_i y1 y2 y3 y4 s1 m1 m2 s2 d1 d2
    split at h
    · rename_i hcond
      simp only [Bool.and_eq_true] at hcond
      exact ⟨d2, by simp, hcond.2⟩
    · exact absurd h (by simp)
  · exact absurd h (by simp)

theorem relDateParse_decimal (n : Nat) (hn : 0 < n) (u : Char)
    (hu : (u == 'd' || u == 'w' || u == 'm') = true) :
    relDateParse ((decimalString n).data ++ [u]) = some (n, u) := by
  unfold relDateParse
  rw [List.getLast?_concat, List.dropLast_concat]
  dsimp only
  rw [if_pos (by
    simp only [Bool.and_eq_true, Bool.not_eq_true']
    exact ⟨⟨decimalString_ne_nil hn, decimalString_all_digits n⟩, hu⟩)]
  rw [digitsToNat_decimalString]

theorem parse_date_decimal_unit (today : Date) (n : Nat) (hn : 0 < n) (u : Char)
    (hu : (u == 'd' || u == 'w' || u == 'm') = true) (hud : u.isDigit = false) :
    parse_date today (decimalString n ++ String.mk [u]) =
      (if u == 'd' then some (today.subDays n)
       else if u == 'w' then some (today.subDays (7 * n))
       else some (today.subDays (n * 30))) := by
  have hdata : (decimalString n ++ String.mk [u]).data = (decimalString n).data ++ [u] := rfl
  have habs : absDateParse ((decimalString n).data ++ [u]) = none := by
    cases hcase : absDateParse ((decimalString n).data ++ [u]) with
    | none => rfl
    | some t =>
      obtain ⟨c, hc, hcd⟩ := absDateParse_some_last hcase
      rw [List.getLast?_concat] at hc
      cases hc
      rw [hud] at hcd
      exact absurd hcd (by simp)
  have hrel := relDateParse_decimal n hn u hu
  unfold parse_date
  rw [hdata, habs, hrel]
  dsimp only
  unfold parse_relative_date
  rw [hdata, hrel]
  dsimp only
  by_cases h1 : u == 'd'
  · simp [h1]
  · by_cases h2 : u == 'w'
    · simp [h1, h2]
    · have h3 : (u == 'm') = true := by
        simp only [Bool.or_eq_true] at hu
        rcases hu with (hd | hw) | hm
        · exact absurd hd h1
        · exact absurd hw h2
        · exact hm
      simp [h1, h2, h3]

/-- C6.  Absolute round trip: parsing the canonical `YYYY-MM-DD` rendering of
any valid calendar date returns exactly that year, month and day.  Relative:
for positive `N`, parsing `f"{N}d"`, `f"{N}w"`, `f"{N}m"` returns today minus
`N` days, `N` weeks, and `N` times 30 days respectively. -/
theorem c6_parse_date_round_trip (today : Date) (y m d n : Nat)
    (hv : isValidDate y m d = true) (hn : 0 < n) :
    parse_date today (absDateString y m d) = some ⟨y, m, d⟩ ∧
    parse_date today (decimalString n ++ "d") = some (today.subDays n) ∧
    parse_date today (decimalString n ++ "w") = some (today.subDays (7 * n)) ∧
    parse_date today (decimalString n ++ "m") = some (today.subDays (n * 30)) := by
  have hb : y ≤ 9999 ∧ m ≤ 99 ∧ d ≤ 99 := by
    have hv2 := hv
    unfold isValidDate at hv2
    simp only [Bool.and_eq_true, decide_eq_true_eq] at hv2
    have hdm : daysInMonth y m ≤ 31 := by
      unfold daysInMonth
      split
      · split <;> omega
      · split <;> omega
    omega
  refine ⟨?_, ?_, ?_, ?_⟩
  · have habs := absDateParse_absDateString y m d hb.1 hb.2.1 hb.2.2
    unfold parse_date
    rw [habs]
    dsimp only
    rw [if_pos hv]
  · have h := parse_date_decimal_unit today n hn 'd' (by decide) (by decide)
    simpa using h
  · have h := parse_date_decimal_unit today n hn 'w' (by decide) (by decide)
    simpa using h
  · have h := parse_date_decimal_unit today n hn 'm' (by decide) (by decide)
    simpa using h

theorem c6_parse_date_round_trip_witness :
    isValidDate 2024 11 1 = true ∧ 0 < 7 ∧
    parse_date ⟨2024, 11, 15⟩ (absDateString 2024 11 1) = some ⟨2024, 11, 1⟩ ∧
    parse_date ⟨2024, 11, 15⟩ (decimalString 7 ++ "d") =
      some (Date.subDays ⟨2024, 11, 15⟩ 7) ∧
    Date.subDays ⟨2024, 11, 15⟩ 7 = ⟨2024, 11, 8⟩ :=
  ⟨by decide, by decide,
   (c6_parse_date_round_trip ⟨2024, 11, 15⟩ 2024 11 1 7 (by decide) (by decide)).1,
   (c6_parse_date_round_trip ⟨2024, 11, 15⟩ 2024 11 1 7 (by decide) (by decide)).2.1,
   by decide⟩

theorem findDateWindow_eq_none (cs : List Char) (h : ∀ i, dateShapedAt cs i = false) :
    findDateWindow cs = none := by
  induction cs with
  | nil => rfl
  | cons c rest ih =>
    have h0 : (absDateParse ((c :: rest).take 10)).isSome = false := by
      have h00 := h 0
      unfold dateShapedAt at h00
      simpa using h00
    simp only [findDateWindow, h0, Bool.false_eq_true, if_false]
    apply ih
    intro i
    have hi := h (i + 1)
    unfold dateShapedAt at hi ⊢
    simpa [List.drop_succ_cons] using hi

theorem findDateWindow_eq_some (cs : List Char) (i : Nat)
    (hi : dateShapedAt cs i = true) (hmin : ∀ j, j < i → dateShapedAt cs j = false) :
    findDateWindow cs = some ((cs.drop i).take 10) := by
  induction cs generalizing i with
  | nil =>
    unfold dateShapedAt at hi
    simp [absDateParse] at hi
  | cons c rest ih =>
    cases i with
    | zero =>
      unfold dateShapedAt at hi
      simp only [List.drop_zero] at hi
      simp only [findDateWindow, hi, if_true, List.drop_zero]
    | succ j =>
      have h0 : (absDateParse ((c :: rest).take 10)).isSome = false := by
        have h00 := hmin 0 (Nat.succ_pos j)
        unfold dateShapedAt at h00
        simpa using h00
      simp only [findDateWindow, h0, Bool.false_eq_true, if_false]
      have hi' : dateShapedAt rest j = true := by
        unfold dateShapedAt at hi ⊢
        simpa [List.drop_succ_cons] using hi
      have hmin' : ∀ k, k < j → dateShapedAt rest k = false := by
        intro k hk
        have hk2 := hmin (k + 1) (by omega)
        unfold dateShapedAt at hk2 ⊢
        simpa [List.drop_succ_cons] using hk2
      rw [ih j hi' hmin']
      simp [List.drop_succ_cons]

/-- C7.  `extract_date_from_filename` inspects only the filename component
(the directory part is irrelevant); it returns `none` when no position of
the filename matches the `YYYY-MM-DD` shape; and at the first matching
position it returns the parsed date when calendar-valid and `none` — not an
error — when calendar-invalid. -/
theorem c7_extract_date_from_filename (dir1 dir2 : List String) (name : String) :
    (extract_date_from_filename (dir1 ++ [name]) =
      extract_date_from_filename (dir2 ++ [name])) ∧
    ((∀ i, dateShapedAt name.data i = false) →
      extract_date_from_filename (dir1 ++ [name]) = none) ∧
    (∀ i y m d, dateShapedAt name.data i = true →
      (∀ j, j < i → dateShapedAt name.data j = false) →
      absDateParse ((name.data.drop i).take 10) = some (y, (m, d)) →
      extract_date_from_filename (dir1 ++ [name]) =
        (if isValidDate y m d = true then some ⟨y, m, d⟩ else none)) := by
  have hlast : ∀ dir : List String,
      extract_date_from_filename (dir ++ [name]) = extractDateFromName name.data := by
    intro dir
    unfold extract_date_from_filename
    rw [List.getLast?_concat]
  refine ⟨by rw [hlast, hlast], ?_, ?_⟩
  · intro h
    rw [hlast]
    unfold extractDateFromName
    rw [findDateWindow_eq_none name.data h]
  · intro i y m d hi hmin hparse
    rw [hlast]
    unfold extractDateFromName
    rw [findDateWindow_eq_some name.data i hi hmin]
    dsimp only
    rw [hparse]

theorem c7_extract_date_from_filename_witness :
    dateShapedAt ("2024-13-01.md".data) 0 = true ∧
    absDateParse (("2024-13-01.md".data.drop 0).take 10) = some (2024, (13, 1)) ∧
    isValidDate 2024 13 1 = false ∧
    extract_date_from_filename (["daily"] ++ ["2024-13-01.md"]) =
      (if isValidDate 2024 13 1 = true then some ⟨2024, 13, 1⟩ else none) ∧
    extract_date_from_filename (["daily"] ++ ["launch.md"]) = none :=
  ⟨by decide, by decide, by decide,
   (c7_extract_date_from_filename ["daily"] [] "2024-13-01.md").2.2 0 2024 13 1
     (by decide) (fun j hj => absurd hj (Nat.not_lt_zero j)) (by decide),
   (c7_extract_date_from_filename ["daily"] [] "launch.md").2.1 (by
     intro i
     by_cases hc : i < 9
     · interval_cases i <;> decide
     · have hnil : "launch.md".data.drop i = [] := by
         apply List.drop_eq_nil_of_le
         have h9 : "launch.md".data.length = 9 := by decide
         omega
       unfold dateShapedAt
       rw [hnil]
       rfl)⟩

theorem Date.ble_trans (a b c : Date) (hab : Date.ble a b = true) (hbc : Date.ble b c = true) :
    Date.ble a c = true := by
  unfold Date.ble at *
  simp only [decide_eq_true_eq] at *
  omega

theorem Date.ble_total (a b : Date) : (Date.ble a b || Date.ble b a) = true := by
  unfold Date.ble
  simp only [Bool.or_eq_true, decide_eq_true_eq]
  omega

theorem sortKey_trans (descending : Bool) (a b c : SearchResult)
    (hab : sortKey descending a b = true) (hbc : sortKey descending b c = true) :
    sortKey descending a c = true := by
  cases descending with
  | false =>
    simp only [sortKey, Bool.false_eq_true, if_false] at hab hbc ⊢
    exact Date.ble_trans _ _ _ hab hbc
  | true =>
    simp only [sortKey, if_true] at hab hbc ⊢
    exact Date.ble_trans _ _ _ hbc hab

theorem sortKey_total (descending : Bool) (a b : SearchResult) :
    (sortKey descending a b || sortKey descending b a) = true := by
  cases descending with
  | false =>
    simp only [sortKey, Bool.false_eq_true, if_false]
    exact Date.ble_total _ _
  | true =>
    simp only [sortKey, if_true]
    exact Date.ble_total _ _

/-- C8.  `sort_by_date` returns a new result set whose results are a stable
sort of the originals under the key `entry_date or date.min` (permutation,
sorted under the comparator, and every comparator-sorted sublist of the
input survives as a sublist of the output — the standard stability
property), while `total_count`, `execution_time_ms`, `files_scanned` and the
query are copied unchanged; the original set is not mutated (values are
immutable here). -/
theorem c8_sort_by_date (rs : SearchResultSet) (descending : Bool) :
    (rs.sort_by_date descending).results.Perm rs.results ∧
    List.Pairwise (fun a b => sortKey descending a b = true)
      (rs.sort_by_date descending).results ∧
    (∀ c : List SearchResult, c.Sublist rs.results →
      List.Pairwise (fun a b => sortKey descending a b = true) c →
      c.Sublist (rs.sort_by_date descending).results) ∧
    (rs.sort_by_date descending).total_count = rs.total_count ∧
    (rs.sort_by_date descending).execution_time_ms = rs.execution_time_ms ∧
    (rs.sort_by_date descending).files_scanned = rs.files_scanned ∧
    (rs.sort_by_date descending).query = rs.query := by
  refine ⟨List.mergeSort_perm _ _,
    List.sorted_mergeSort (sortKey_trans descending) (sortKey_total descending) _,
    ?_, rfl, rfl, rfl, rfl⟩
  intro c hsub hpair
  exact List.sublist_mergeSort (sortKey_trans descending) (sortKey_total descending) hpair hsub

/-- Result dated 2024-11-01. -/
def c8r1 : SearchResult :=
  { file_path := ["daily", "2024-11-01.md"], entry_type := .DAILY,
    entry_date := some ⟨2024, 11, 1⟩, line_number := 1, matched_line := "x",
    context_before := [], context_after := [], match_positions := [] }

/-- Dateless result. -/
def c8r2 : SearchResult :=
  { file_path := ["projects", "launch.md"], entry_type := .PROJECT,
    entry_date := none, line_number := 2, matched_line := "y",
    context_before := [], context_after := [], match_positions := [] }

/-- Result dated 2024-11-10. -/
def c8r3 : SearchResult :=
  { file_path := ["daily", "2024-11-10.md"], entry_type := .DAILY,
    entry_date := some ⟨2024, 11, 10⟩, line_number := 3, matched_line := "z",
    context_before := [], context_after := [], match_positions := [] }

/-- Result set over dates {2024-11-01, none, 2024-11-10}. -/
def c8set : SearchResultSet :=
  { results := [c8r1, c8r2, c8r3], query := c3q, total_count := 3,
    execution_time_ms := 9, files_scanned := 3 }

theorem c8_sort_by_date_witness :
    (c8set.sort_by_date true).results = [c8r3, c8r1, c8r2] ∧
    [c8r1, c8r2].Sublist c8set.results ∧
    List.Pairwise (fun a b => sortKey true a b = true) [c8r1, c8r2] ∧
    [c8r1, c8r2].Sublist (c8set.sort_by_date true).results ∧
    (c8set.sort_by_date true).total_count = c8set.total_count :=
  ⟨by simp [SearchResultSet.sort_by_date, List.mergeSort, c8set, c8r1, c8r2, c8r3,
      sortKey, keyDate, Date.ble],
   by decide, by decide,
   (c8_sort_by_date c8set true).2.2.1 [c8r1, c8r2] (by decide) (by decide),
   (c8_sort_by_date c8set true).2.2.2.1⟩
